import Mathlib

/-!
Verification of `util/net/http_multipart_builder.cc` (Crashpad).

The C++ unit builds a `multipart/form-data` HTTP body from named text fields
and named file attachments.  Strings are modelled as `List Char` (the C++
`std::string` is a byte sequence; all data here is character data), the two
`std::map` members as association lists kept in sorted key order (matching
`std::map` iteration order), and the produced `HTTPBodyStream` objects as a
list of segments, each either a string-backed segment or a file-backed
segment.  `base::RandGenerator(range)` is modelled by a caller-supplied
`rand : Nat → Nat` reduced modulo the range, and the fatal `CHECK` in
`AssertSafeMIMEType` makes `SetFileAttachment` return an `Option`.
-/

namespace Crashpad

abbrev Str := List Char

/-- `const char kCRLF[] = "\r\n";` -/
def kCRLF : Str := ['\r', '\n']

/-- `const char kBoundaryCRLF[] = "\r\n\r\n";` -/
def kBoundaryCRLF : Str := ['\r', '\n', '\r', '\n']

/-- The 62-character alphabet used by `GenerateBoundaryString`. -/
def kCharacters : Str :=
  "0123456789ABCDEFGHIJKLMNOPQRSTUVWXYZabcdefghijklmnopqrstuvwxyz".data

/-- `GenerateBoundaryString`: fixed prefix, 32 random alphanumeric
characters, fixed suffix.  `rand index` models the value returned by
`base::RandGenerator(strlen(kCharacters))` on loop iteration `index`;
`RandGenerator(n)` returns a value in `[0, n)`, modelled by `% 62`. -/
def GenerateBoundaryString (rand : Nat → Nat) : Str :=
  "---MultipartBoundary-".data ++
    ((List.range 32).map fun index => kCharacters.getD (rand index % 62) 'A') ++
    "---".data

/-- One lowercase hex digit, as produced by `printf`-style `%x`. -/
def toHexDigit (n : Nat) : Char :=
  if n < 10 then Char.ofNat (48 + n) else Char.ofNat (97 + (n - 10))

/-- One iteration of the `EncodeMIMEField` loop: the `switch` escapes
CR, LF, double quote and percent as `%` followed by the two lowercase
hex digits of the character (the `"%%%02x"` format), and leaves every
other character unchanged. -/
def EncodeMIMEFieldChar (c : Char) : Str :=
  if c = '\r' ∨ c = '\n' ∨ c = '"' ∨ c = '%' then
    ['%', toHexDigit (c.toNat / 16 % 16), toHexDigit (c.toNat % 16)]
  else
    [c]

/-- `EncodeMIMEField`: appends the per-character encoding of each
character of `name` in order. -/
def EncodeMIMEField : Str → Str
  | [] => []
  | c :: rest => EncodeMIMEFieldChar c ++ EncodeMIMEField rest

/-- `GetFormDataBoundary(boundary, name)`:
`"--%s%sContent-Disposition: form-data; name=\"%s\""` with the boundary,
CRLF and the encoded name. -/
def GetFormDataBoundary (boundary name : Str) : Str :=
  "--".data ++ boundary ++ kCRLF ++
    "Content-Disposition: form-data; name=\"".data ++ EncodeMIMEField name ++ "\"".data

/-- The per-character condition checked by `AssertSafeMIMEType`'s `CHECK`. -/
def SafeMIMEChar (c : Char) : Bool :=
  ('a' ≤ c && c ≤ 'z') || ('A' ≤ c && c ≤ 'Z') || ('0' ≤ c && c ≤ '9') ||
    c == '/' || c == '.' || c == '_' || c == '+' || c == '-'

/-- `AssertSafeMIMEType`: true iff the fatal `CHECK` passes for every
character of the string. -/
def AssertSafeMIMEType (string : Str) : Bool :=
  string.all SafeMIMEChar

/-- The `FileAttachment` struct stored in `file_attachments_`. -/
structure FileAttachment where
  filename : Str
  path : Str
  content_type : Str
deriving DecidableEq

/-- Lexicographic (`std::string::compare`) order on keys, used to keep the
association lists in `std::map` iteration order. -/
def strLt : Str → Str → Bool
  | [], [] => false
  | [], _ :: _ => true
  | _ :: _, [] => false
  | c :: cs, d :: ds => if c < d then true else if d < c then false else strLt cs ds

/-- `std::map::find` on the sorted association list. -/
def mapFind {α : Type} : List (Str × α) → Str → Option α
  | [], _ => none
  | (k0, v) :: rest, k => if k0 = k then some v else mapFind rest k

/-- `std::map::erase(find(k))`: removes the entry with key `k`, if any. -/
def mapErase {α : Type} : List (Str × α) → Str → List (Str × α)
  | [], _ => []
  | (k0, v) :: rest, k => if k0 = k then rest else (k0, v) :: mapErase rest k

/-- `map[k] = v`: replaces the value under `k` or inserts a new entry,
keeping the list sorted by key. -/
def mapInsert {α : Type} : List (Str × α) → Str → α → List (Str × α)
  | [], k, v => [(k, v)]
  | (k0, v0) :: rest, k, v =>
    if strLt k k0 then (k, v) :: (k0, v0) :: rest
    else if k0 = k then (k, v) :: rest
    else (k0, v0) :: mapInsert rest k v

/-- The builder state: the generated boundary and the two maps. -/
structure HTTPMultipartBuilder where
  boundary : Str
  form_data : List (Str × Str)
  file_attachments : List (Str × FileAttachment)
deriving DecidableEq

namespace HTTPMultipartBuilder

/-- The constructor `HTTPMultipartBuilder::HTTPMultipartBuilder()`:
generates the boundary once and starts with empty collections. -/
def construct (rand : Nat → Nat) : HTTPMultipartBuilder :=
  { boundary := GenerateBoundaryString rand, form_data := [], file_attachments := [] }

/-- `HTTPMultipartBuilder::EraseKey(key)`: erases `key` from both maps. -/
def EraseKey (b : HTTPMultipartBuilder) (key : Str) : HTTPMultipartBuilder :=
  { b with form_data := mapErase b.form_data key,
           file_attachments := mapErase b.file_attachments key }

/-- `HTTPMultipartBuilder::SetFormData(key, value)`. -/
def SetFormData (b : HTTPMultipartBuilder) (key value : Str) : HTTPMultipartBuilder :=
  let b1 := b.EraseKey key
  { b1 with form_data := mapInsert b1.form_data key value }

/-- `HTTPMultipartBuilder::SetFileAttachment(key, upload_file_name, path,
content_type)`.  Note: the source calls `EraseKey(upload_file_name)`, not
`EraseKey(key)`.  The fatal `CHECK` of `AssertSafeMIMEType` is modelled by
returning `none`. -/
def SetFileAttachment (b : HTTPMultipartBuilder)
    (key upload_file_name path content_type : Str) : Option HTTPMultipartBuilder :=
  let b1 := b.EraseKey upload_file_name
  let encoded_filename := EncodeMIMEField upload_file_name
  if content_type = [] then
    let att : FileAttachment := ⟨encoded_filename, path, "application/octet-stream".data⟩
    some { b1 with file_attachments := mapInsert b1.file_attachments key att }
  else if AssertSafeMIMEType content_type then
    let att : FileAttachment := ⟨encoded_filename, path, content_type⟩
    some { b1 with file_attachments := mapInsert b1.file_attachments key att }
  else
    none

end HTTPMultipartBuilder

/-- An `HTTPBodyStream*` pushed onto the `streams` vector: either a
`StringHTTPBodyStream` or a `FileHTTPBodyStream`. -/
inductive HTTPBodyStream where
  | stringStream (s : Str)
  | fileStream (path : Str)
deriving DecidableEq

namespace HTTPMultipartBuilder

/-- `HTTPMultipartBuilder::GetBodyStream()`: the ordered list of streams
handed to the `CompositeHTTPBodyStream` — one string stream per form
field, then three streams (header, file, CRLF) per attachment, then the
closing string stream. -/
def GetBodyStream (b : HTTPMultipartBuilder) : List HTTPBodyStream :=
  (b.form_data.map fun pair =>
    HTTPBodyStream.stringStream
      (GetFormDataBoundary b.boundary pair.1 ++ kBoundaryCRLF ++ pair.2 ++ kCRLF)) ++
  (b.file_attachments.flatMap fun pair =>
    [HTTPBodyStream.stringStream
       (GetFormDataBoundary b.boundary pair.1 ++
         "; filename=\"".data ++ pair.2.filename ++ "\"".data ++ kCRLF ++
         "Content-Type: ".data ++ pair.2.content_type ++ kBoundaryCRLF),
     HTTPBodyStream.fileStream pair.2.path,
     HTTPBodyStream.stringStream kCRLF]) ++
  [HTTPBodyStream.stringStream ("--".data ++ b.boundary ++ "--".data ++ kCRLF)]

/-- `GetBodyStream` as a method acting on the builder state: the method
body reads `form_data_`, `file_attachments_` and `boundary()` but assigns
to no member, so the resulting state is the input state. -/
def GetBodyStreamM (b : HTTPMultipartBuilder) :
    HTTPMultipartBuilder × List HTTPBodyStream :=
  (b, GetBodyStream b)

end HTTPMultipartBuilder

/-- The bytes a stream yields when read: a string stream yields its
string; a file stream yields the file's content at read time, given by
the environment `fileContents`. -/
def StreamBytes (fileContents : Str → Str) : HTTPBodyStream → Str
  | .stringStream s => s
  | .fileStream p => fileContents p

/-- The bytes of the composite stream: the concatenation of the bytes of
its constituent streams in order. -/
def BodyBytes (fileContents : Str → Str) (streams : List HTTPBodyStream) : Str :=
  (streams.map (StreamBytes fileContents)).flatten

/-- Spec §4.4 item 1, written from the spec's words: the byte segment a
form field contributes:
`--{boundary}\r\nContent-Disposition: form-data; name="{escaped-key}"\r\n\r\n{value}\r\n`. -/
def specFieldSegment (boundary key value : Str) : Str :=
  "--".data ++ boundary ++ "\r\n".data ++
    "Content-Disposition: form-data; name=\"".data ++ EncodeMIMEField key ++
    "\"".data ++ "\r\n\r\n".data ++ value ++ "\r\n".data

/-- Spec §4.4 item 2, written from the spec's words: the byte segment a
file attachment contributes — the header line with escaped key and stored
(already escaped) filename, the content type, the file's bytes, then CRLF. -/
def specAttachmentSegment (fileContents : Str → Str) (boundary key : Str)
    (a : FileAttachment) : Str :=
  "--".data ++ boundary ++ "\r\n".data ++
    "Content-Disposition: form-data; name=\"".data ++ EncodeMIMEField key ++
    "\"".data ++ "; filename=\"".data ++ a.filename ++ "\"".data ++ "\r\n".data ++
    "Content-Type: ".data ++ a.content_type ++ "\r\n\r\n".data ++
    fileContents a.path ++ "\r\n".data

/-- Spec §4.4 item 3: the single closing segment `--{boundary}--\r\n`. -/
def specClosingSegment (boundary : Str) : Str :=
  "--".data ++ boundary ++ "--".data ++ "\r\n".data

/-- Spec §4.4, whole body: field segments in collection order, then
attachment segments in collection order, then the closing segment. -/
def specBody (fileContents : Str → Str) (b : HTTPMultipartBuilder) : Str :=
  (b.form_data.map fun p => specFieldSegment b.boundary p.1 p.2).flatten ++
    (b.file_attachments.map fun p =>
      specAttachmentSegment fileContents b.boundary p.1 p.2).flatten ++
    specClosingSegment b.boundary

/-- `startsWithL p s`: `p` is an initial run of `s`. -/
def startsWithL : Str → Str → Bool
  | [], _ => true
  | _ :: _, [] => false
  | c :: p, d :: s => c == d && startsWithL p s

/-- A stream that begins a multipart part: a string stream whose string
starts with `--{boundary}\r\n`. -/
def isPartStart (boundary : Str) : HTTPBodyStream → Bool
  | .stringStream s => startsWithL ("--".data ++ boundary ++ kCRLF) s
  | .fileStream _ => false

/-- The closing segment `--{boundary}--\r\n` as a stream. -/
def isClosing (boundary : Str) (s : HTTPBodyStream) : Bool :=
  s == HTTPBodyStream.stringStream ("--".data ++ boundary ++ "--".data ++ kCRLF)

/-- Every `%` in the string begins one of the four escape triples
`%0d`, `%0a`, `%22`, `%25`, and no CR, LF or `"` occurs outside them
(the triples contain none): the string has no literal unescaped
occurrence of the four escaped characters. -/
inductive EscapedShape : Str → Prop where
  | nil : EscapedShape []
  | plain {c : Char} {rest : Str}
      (hc : c ≠ '\r' ∧ c ≠ '\n' ∧ c ≠ '"' ∧ c ≠ '%')
      (h : EscapedShape rest) : EscapedShape (c :: rest)
  | escape {c : Char} {rest : Str}
      (hc : c = '\r' ∨ c = '\n' ∨ c = '"' ∨ c = '%')
      (h : EscapedShape rest) :
      EscapedShape ('%' :: toHexDigit (c.toNat / 16 % 16) :: toHexDigit (c.toNat % 16) :: rest)

/-- Value of one lowercase hex digit; decoder for the escape triples,
used to establish that the encoding is unambiguously decodable. -/
def hexVal (c : Char) : Nat :=
  if c.toNat < 97 then c.toNat - 48 else c.toNat - 87

/-- Decoder inverting `EncodeMIMEField`: a `%` consumes the following two
hex digits; every other character decodes to itself. -/
def decodeMIME : Str → Str
  | [] => []
  | c :: rest =>
    if c = '%' then
      match rest with
      | h1 :: h2 :: rest2 => Char.ofNat (hexVal h1 * 16 + hexVal h2) :: decodeMIME rest2
      | [] => [c]
      | [h1] => [c, h1]
    else c :: decodeMIME rest

/-! Helper lemmas. -/

theorem data_crlf : "\r\n".data = ['\r', '\n'] := rfl

theorem data_two_crlf : "\r\n\r\n".data = ['\r', '\n', '\r', '\n'] := rfl

theorem data_dashes : "--".data = ['-', '-'] := rfl

theorem mapFind_insert_self {α : Type} (m : List (Str × α)) (k : Str) (v : α) :
    mapFind (mapInsert m k v) k = some v := by
  induction m with
  | nil => simp [mapInsert, mapFind]
  | cons hd tl ih =>
    obtain ⟨k0, v0⟩ := hd
    by_cases h1 : strLt k k0
    · simp [mapInsert, h1, mapFind]
    · by_cases h2 : k0 = k
      · subst h2
        simp [mapInsert, h1, mapFind]
      · simp [mapInsert, h1, h2, mapFind, ih]

theorem mapFind_insert_ne {α : Type} (m : List (Str × α)) (k k' : Str) (v : α)
    (h : k' ≠ k) : mapFind (mapInsert m k v) k' = mapFind m k' := by
  induction m with
  | nil => simp [mapInsert, mapFind, Ne.symm h]
  | cons hd tl ih =>
    obtain ⟨k0, v0⟩ := hd
    by_cases h1 : strLt k k0
    · simp [mapInsert, h1, mapFind, Ne.symm h]
    · by_cases h2 : k0 = k
      · subst h2
        simp [mapInsert, h1, mapFind, Ne.symm h]
      · simp [mapInsert, h1, h2, mapFind, ih]

theorem mapFind_erase_ne {α : Type} (m : List (Str × α)) (k k' : Str)
    (h : k' ≠ k) : mapFind (mapErase m k) k' = mapFind m k' := by
  induction m with
  | nil => simp [mapErase]
  | cons hd tl ih =>
    obtain ⟨k0, v0⟩ := hd
    by_cases h2 : k0 = k
    · subst h2
      simp [mapErase, mapFind, Ne.symm h]
    · simp [mapErase, h2, mapFind, ih]

theorem mapFind_eq_none_of_not_mem {α : Type} (m : List (Str × α)) (k : Str)
    (h : k ∉ m.map Prod.fst) : mapFind m k = none := by
  induction m with
  | nil => rfl
  | cons hd tl ih =>
    obtain ⟨k0, v0⟩ := hd
    simp only [List.map_cons, List.mem_cons, not_or] at h
    simp [mapFind, Ne.symm h.1, ih h.2]

theorem mapFind_erase_self {α : Type} (m : List (Str × α)) (k : Str)
    (h : (m.map Prod.fst).Nodup) : mapFind (mapErase m k) k = none := by
  induction m with
  | nil => rfl
  | cons hd tl ih =>
    obtain ⟨k0, v0⟩ := hd
    simp only [List.map_cons, List.nodup_cons] at h
    by_cases h2 : k0 = k
    · subst h2
      simpa [mapErase] using mapFind_eq_none_of_not_mem tl k0 h.1
    · simp [mapErase, h2, mapFind, ih h.2]

theorem startsWithL_self_append (p rest : Str) : startsWithL p (p ++ rest) = true := by
  induction p with
  | nil => rfl
  | cons c p ih => simp [startsWithL, ih]

theorem startsWithL_cancel_front (l x y : Str) :
    startsWithL (l ++ x) (l ++ y) = startsWithL x y := by
  induction l with
  | nil => rfl
  | cons c l ih => simp [startsWithL, ih]

theorem append_head_ne {l : Str} {c d : Char} (hcd : c ≠ d) (X Y : Str) :
    l ++ (c :: X) ≠ l ++ (d :: Y) := by
  intro h
  have h2 := List.append_cancel_left h
  simp only [List.cons.injEq] at h2
  exact hcd h2.1

theorem enc_cr : EncodeMIMEFieldChar '\r' = ['%', '0', 'd'] := by decide

theorem enc_lf : EncodeMIMEFieldChar '\n' = ['%', '0', 'a'] := by decide

theorem enc_quote : EncodeMIMEFieldChar '"' = ['%', '2', '2'] := by decide

theorem enc_percent : EncodeMIMEFieldChar '%' = ['%', '2', '5'] := by decide

theorem enc_plain (c : Char) (h : ¬(c = '\r' ∨ c = '\n' ∨ c = '"' ∨ c = '%')) :
    EncodeMIMEFieldChar c = [c] := by
  simp [EncodeMIMEFieldChar, h]

theorem decode_encode (s : Str) : decodeMIME (EncodeMIMEField s) = s := by
  induction s with
  | nil => rfl
  | cons c rest ih =>
    by_cases h : c = '\r' ∨ c = '\n' ∨ c = '"' ∨ c = '%'
    · rcases h with h | h | h | h <;> subst h <;>
        simp [EncodeMIMEField, enc_cr, enc_lf, enc_quote, enc_percent,
          decodeMIME, hexVal, ih] <;> decide
    · have hc : ¬c = '%' := by
        intro hx
        exact h (Or.inr (Or.inr (Or.inr hx)))
      rw [EncodeMIMEField, enc_plain c h, List.singleton_append, decodeMIME.eq_def]
      simp [hc, ih]

theorem no_cr_lf_quote_in_encode (s : Str) :
    '\r' ∉ EncodeMIMEField s ∧ '\n' ∉ EncodeMIMEField s ∧ '"' ∉ EncodeMIMEField s := by
  induction s with
  | nil => simp [EncodeMIMEField]
  | cons c rest ih =>
    by_cases h : c = '\r' ∨ c = '\n' ∨ c = '"' ∨ c = '%'
    · rcases h with h | h | h | h <;> subst h <;>
        simp [EncodeMIMEField, enc_cr, enc_lf, enc_quote, enc_percent, ih]
    · push_neg at h
      simp [EncodeMIMEField, enc_plain c (by simp [h.1, h.2.1, h.2.2.1, h.2.2.2]), ih,
        Ne.symm h.1, Ne.symm h.2.1, Ne.symm h.2.2.1]

theorem escapedShape_encode (s : Str) : EscapedShape (EncodeMIMEField s) := by
  induction s with
  | nil => exact EscapedShape.nil
  | cons c rest ih =>
    by_cases h : c = '\r' ∨ c = '\n' ∨ c = '"' ∨ c = '%'
    · have : EncodeMIMEField (c :: rest) =
          '%' :: toHexDigit (c.toNat / 16 % 16) :: toHexDigit (c.toNat % 16) ::
            EncodeMIMEField rest := by
        simp [EncodeMIMEField, EncodeMIMEFieldChar, h]
      rw [this]
      exact EscapedShape.escape h ih
    · push_neg at h
      have : EncodeMIMEField (c :: rest) = c :: EncodeMIMEField rest := by
        simp [EncodeMIMEField, enc_plain c (by simp [h.1, h.2.1, h.2.2.1, h.2.2.2])]
      rw [this]
      exact EscapedShape.plain h ih

theorem field_stream_bytes (fc : Str → Str) (bnd : Str) (fd : List (Str × Str)) :
    ((fd.map fun pair =>
        HTTPBodyStream.stringStream
          (GetFormDataBoundary bnd pair.1 ++ kBoundaryCRLF ++ pair.2 ++ kCRLF)).map
      (StreamBytes fc)).flatten =
    (fd.map fun p => specFieldSegment bnd p.1 p.2).flatten := by
  induction fd with
  | nil => rfl
  | cons hd tl ih =>
    simp only [List.map_cons, List.flatten_cons, ih]
    simp [StreamBytes, GetFormDataBoundary, specFieldSegment, kCRLF, kBoundaryCRLF,
      data_crlf, data_two_crlf]

theorem attachment_stream_bytes (fc : Str → Str) (bnd : Str)
    (fa : List (Str × FileAttachment)) :
    ((fa.flatMap fun pair =>
        [HTTPBodyStream.stringStream
           (GetFormDataBoundary bnd pair.1 ++
             "; filename=\"".data ++ pair.2.filename ++ "\"".data ++ kCRLF ++
             "Content-Type: ".data ++ pair.2.content_type ++ kBoundaryCRLF),
         HTTPBodyStream.fileStream pair.2.path,
         HTTPBodyStream.stringStream kCRLF]).map
      (StreamBytes fc)).flatten =
    (fa.map fun p => specAttachmentSegment fc bnd p.1 p.2).flatten := by
  induction fa with
  | nil => rfl
  | cons hd tl ih =>
    simp only [List.flatMap_cons, List.map_cons, List.map_append, List.flatten_append,
      List.flatten_cons, ih]
    simp [StreamBytes, GetFormDataBoundary, specAttachmentSegment, kCRLF, kBoundaryCRLF,
      data_crlf, data_two_crlf]

theorem isPartStart_of_boundary_header (bnd X : Str) :
    isPartStart bnd (HTTPBodyStream.stringStream (("--".data ++ bnd ++ kCRLF) ++ X)) =
      true := by
  simp only [isPartStart]
  exact startsWithL_self_append _ _

theorem isPartStart_crlf (bnd : Str) :
    isPartStart bnd (HTTPBodyStream.stringStream kCRLF) = false := by
  simp [isPartStart, kCRLF, data_dashes, startsWithL]

theorem isPartStart_closing (bnd : Str) :
    isPartStart bnd
      (HTTPBodyStream.stringStream
        ("--".data ++ (bnd ++ ("--".data ++ kCRLF)))) = false := by
  simp only [isPartStart]
  have h1 : "--".data ++ bnd ++ kCRLF = ("--".data ++ bnd) ++ kCRLF := rfl
  have h2 : "--".data ++ (bnd ++ ("--".data ++ kCRLF)) =
      ("--".data ++ bnd) ++ ("--".data ++ kCRLF) := by
    rw [List.append_assoc]
  rw [h1, h2, startsWithL_cancel_front]
  decide

theorem header_ne_closing (bnd k X : Str) :
    GetFormDataBoundary bnd k ++ X ≠ "--".data ++ bnd ++ "--".data ++ kCRLF := by
  have h1 : GetFormDataBoundary bnd k ++ X =
      ("--".data ++ bnd) ++
        ('\r' :: '\n' :: ("Content-Disposition: form-data; name=\"".data ++
          (EncodeMIMEField k ++ ("\"".data ++ X)))) := by
    simp [GetFormDataBoundary, kCRLF, List.append_assoc]
  have h2 : "--".data ++ bnd ++ "--".data ++ kCRLF =
      ("--".data ++ bnd) ++ ('-' :: '-' :: kCRLF) := by
    simp [data_dashes, List.append_assoc]
  rw [h1, h2]
  exact append_head_ne (by decide) _ _

theorem crlf_ne_closing (bnd : Str) :
    (kCRLF : Str) ≠ "--".data ++ bnd ++ "--".data ++ kCRLF := by
  simp [kCRLF, data_dashes]

theorem isPartStart_header (bnd k X : Str) :
    isPartStart bnd (HTTPBodyStream.stringStream (GetFormDataBoundary bnd k ++ X)) =
      true := by
  have h : GetFormDataBoundary bnd k ++ X =
      ("--".data ++ bnd ++ kCRLF) ++
        ("Content-Disposition: form-data; name=\"".data ++
          (EncodeMIMEField k ++ ("\"".data ++ X))) := by
    simp [GetFormDataBoundary, List.append_assoc]
  rw [h]
  exact isPartStart_of_boundary_header bnd _

theorem isClosing_header_false (bnd k X : Str) :
    isClosing bnd (HTTPBodyStream.stringStream (GetFormDataBoundary bnd k ++ X)) =
      false := by
  simp only [isClosing, beq_eq_false_iff_ne, ne_eq, HTTPBodyStream.stringStream.injEq]
  exact header_ne_closing bnd k X

theorem isClosing_file_false (bnd p : Str) :
    isClosing bnd (HTTPBodyStream.fileStream p) = false := by
  simp [isClosing]

theorem isClosing_crlf_false (bnd : Str) :
    isClosing bnd (HTTPBodyStream.stringStream kCRLF) = false := by
  simp only [isClosing, beq_eq_false_iff_ne, ne_eq, HTTPBodyStream.stringStream.injEq]
  exact crlf_ne_closing bnd

theorem isClosing_self (bnd : Str) :
    isClosing bnd
      (HTTPBodyStream.stringStream
        ("--".data ++ (bnd ++ ("--".data ++ kCRLF)))) = true := by
  simp [isClosing]

theorem filter_flatMap_length_one {α : Type} (p : HTTPBodyStream → Bool)
    (f : α → List HTTPBodyStream) (l : List α)
    (h : ∀ x ∈ l, ((f x).filter p).length = 1) :
    ((l.flatMap f).filter p).length = l.length := by
  induction l with
  | nil => rfl
  | cons hd tl ih =>
    simp only [List.flatMap_cons, List.filter_append, List.length_append,
      List.length_cons]
    rw [h hd (List.mem_cons_self hd tl), ih fun x hx => h x (List.mem_cons_of_mem hd hx)]
    omega

theorem filter_flatMap_length_zero {α : Type} (p : HTTPBodyStream → Bool)
    (f : α → List HTTPBodyStream) (l : List α)
    (h : ∀ x ∈ l, ((f x).filter p).length = 0) :
    ((l.flatMap f).filter p).length = 0 := by
  induction l with
  | nil => rfl
  | cons hd tl ih =>
    simp only [List.flatMap_cons, List.filter_append, List.length_append]
    rw [h hd (List.mem_cons_self hd tl), ih fun x hx => h x (List.mem_cons_of_mem hd hx)]

theorem safeMIMEChar_iff (c : Char) : SafeMIMEChar c = true ↔
    (('a' ≤ c ∧ c ≤ 'z') ∨ ('A' ≤ c ∧ c ≤ 'Z') ∨ ('0' ≤ c ∧ c ≤ '9') ∨
      c = '/' ∨ c = '.' ∨ c = '_' ∨ c = '+' ∨ c = '-') := by
  simp only [SafeMIMEChar, Bool.or_eq_true, Bool.and_eq_true, decide_eq_true_eq,
    beq_iff_eq]
  tauto

theorem isPartStart_file (bnd p : Str) :
    isPartStart bnd (HTTPBodyStream.fileStream p) = false := rfl

theorem isPartStart_field_stream (bnd k v : Str) :
    isPartStart bnd (HTTPBodyStream.stringStream
      (GetFormDataBoundary bnd k ++ (kBoundaryCRLF ++ (v ++ kCRLF)))) = true :=
  isPartStart_header bnd k _

theorem isPartStart_att_header (bnd k : Str) (a : FileAttachment) :
    isPartStart bnd (HTTPBodyStream.stringStream
      (GetFormDataBoundary bnd k ++ ("; filename=\"".data ++ (a.filename ++
        ("\"".data ++ (kCRLF ++ ("Content-Type: ".data ++
          (a.content_type ++ kBoundaryCRLF)))))))) = true :=
  isPartStart_header bnd k _

theorem isClosing_field_stream (bnd k v : Str) :
    isClosing bnd (HTTPBodyStream.stringStream
      (GetFormDataBoundary bnd k ++ (kBoundaryCRLF ++ (v ++ kCRLF)))) = false :=
  isClosing_header_false bnd k _

theorem isClosing_att_header (bnd k : Str) (a : FileAttachment) :
    isClosing bnd (HTTPBodyStream.stringStream
      (GetFormDataBoundary bnd k ++ ("; filename=\"".data ++ (a.filename ++
        ("\"".data ++ (kCRLF ++ ("Content-Type: ".data ++
          (a.content_type ++ kBoundaryCRLF)))))))) = false :=
  isClosing_header_false bnd k _

theorem setFileAttachment_boundary (b : HTTPMultipartBuilder)
    (key ufn path ct : Str) (b' : HTTPMultipartBuilder)
    (h : b.SetFileAttachment key ufn path ct = some b') : b'.boundary = b.boundary := by
  by_cases h1 : ct = []
  · simp [HTTPMultipartBuilder.SetFileAttachment, h1] at h
    rw [← h]
    rfl
  · by_cases h2 : AssertSafeMIMEType ct
    · simp [HTTPMultipartBuilder.SetFileAttachment, h1, h2] at h
      rw [← h]
      rfl
    · simp [HTTPMultipartBuilder.SetFileAttachment, h1, h2] at h

/-! Claim theorems. -/

/-- C1: the claim says `SetFileAttachment(k, uploadFileName, path, contentType)`
removes any existing form field or file attachment stored under `k`.  The code
instead calls `EraseKey(upload_file_name)`: starting from a builder holding a
form field under `"k"`, `SetFileAttachment` with `key = "k"` and
`uploadFileName = "f"` leaves the form field under `"k"` in place while also
storing an attachment under `"k"`, so `"k"` denotes two entries. -/
theorem setFileAttachment_erases_filename_not_key :
    (HTTPMultipartBuilder.SetFileAttachment
        (HTTPMultipartBuilder.SetFormData ⟨['B'], [], []⟩ "k".data "v".data)
        "k".data "f".data "p".data []).map
      (fun b2 => (mapFind b2.form_data "k".data,
                  (mapFind b2.file_attachments "k".data).isSome)) =
    some (some "v".data, true) := by decide

/-- C2: for every builder state and file-content environment, the bytes of
the produced body stream are exactly: per form field (in collection order)
`--{boundary}\r\nContent-Disposition: form-data; name="{escaped-key}"\r\n\r\n{value}\r\n`,
then per file attachment (in collection order)
`--{boundary}\r\nContent-Disposition: form-data; name="{escaped-key}"; filename="{escaped-filename}"\r\nContent-Type: {content-type}\r\n\r\n`
followed by the file's bytes and `\r\n`, then the single closing segment
`--{boundary}--\r\n`. -/
theorem getBodyStream_layout (fileContents : Str → Str) (b : HTTPMultipartBuilder) :
    BodyBytes fileContents b.GetBodyStream = specBody fileContents b := by
  unfold BodyBytes HTTPMultipartBuilder.GetBodyStream specBody
  simp only [List.map_append, List.flatten_append]
  rw [field_stream_bytes, attachment_stream_bytes]
  simp [StreamBytes, specClosingSegment, kCRLF, data_crlf]

/-- C8: a builder with no fields and no attachments produces a body stream
whose entire content is exactly `--{boundary}--\r\n`. -/
theorem empty_builder_body (fileContents : Str → Str) (b : HTTPMultipartBuilder)
    (hf : b.form_data = []) (ha : b.file_attachments = []) :
    BodyBytes fileContents b.GetBodyStream =
      "--".data ++ b.boundary ++ "--".data ++ "\r\n".data := by
  simp [BodyBytes, HTTPMultipartBuilder.GetBodyStream, hf, ha, StreamBytes, kCRLF,
    data_crlf]

/-- Witness for C8 at a concrete empty builder. -/
theorem empty_builder_body_witness :
    BodyBytes (fun _ => []) (HTTPMultipartBuilder.GetBodyStream ⟨['B'], [], []⟩) =
      "--".data ++ ['B'] ++ "--".data ++ "\r\n".data :=
  empty_builder_body (fun _ => []) ⟨['B'], [], []⟩ rfl rfl

/-- C9: `EncodeMIMEField` is injective — equal encodings come from equal
inputs, because `%` itself is always escaped, making the encoding
unambiguously decodable (`decodeMIME` inverts it). -/
theorem encodeMIMEField_injective (s1 s2 : Str)
    (h : EncodeMIMEField s1 = EncodeMIMEField s2) : s1 = s2 := by
  have h2 := congrArg decodeMIME h
  rwa [decode_encode, decode_encode] at h2

/-- Witness for C9 at concrete inputs. -/
theorem encodeMIMEField_injective_witness : "a%b".data = "a%".data ++ "b".data :=
  encodeMIMEField_injective "a%b".data ("a%".data ++ "b".data) (by decide)

/-- C10: `GetBodyStream` leaves the builder state — field collection,
attachment collection and boundary — unchanged, and a second call on the
unmutated builder produces the identical stream list. -/
theorem getBodyStream_frame (b : HTTPMultipartBuilder) :
    b.GetBodyStreamM.1 = b ∧
    b.GetBodyStreamM.1.form_data = b.form_data ∧
    b.GetBodyStreamM.1.file_attachments = b.file_attachments ∧
    b.GetBodyStreamM.1.boundary = b.boundary ∧
    (b.GetBodyStreamM.1.GetBodyStreamM).2 = b.GetBodyStreamM.2 :=
  ⟨rfl, rfl, rfl, rfl, rfl⟩

/-- C3: the escaping function percent-encodes exactly CR, LF, double quote
and percent — each becomes `%` followed by its two-digit hex code — and
leaves every other byte unchanged; consequently an encoded name contains no
CR, LF or double quote at all, every `%` in it begins an escape triple
(`EscapedShape`), and the name's entire contribution to the emitted
`Content-Disposition` header line is exactly its encoding. -/
theorem encodeMIMEField_escapes_exactly_four :
    (EncodeMIMEFieldChar '\r' = ['%', '0', 'd'] ∧
     EncodeMIMEFieldChar '\n' = ['%', '0', 'a'] ∧
     EncodeMIMEFieldChar '"' = ['%', '2', '2'] ∧
     EncodeMIMEFieldChar '%' = ['%', '2', '5']) ∧
    (∀ c : Char, c ≠ '\r' → c ≠ '\n' → c ≠ '"' → c ≠ '%' →
      EncodeMIMEFieldChar c = [c]) ∧
    (∀ name : Str,
      '\r' ∉ EncodeMIMEField name ∧ '\n' ∉ EncodeMIMEField name ∧
      '"' ∉ EncodeMIMEField name ∧ EscapedShape (EncodeMIMEField name)) ∧
    (∀ boundary name : Str,
      GetFormDataBoundary boundary name =
        ("--".data ++ boundary ++ kCRLF ++
          "Content-Disposition: form-data; name=\"".data) ++
          EncodeMIMEField name ++ "\"".data) := by
  refine ⟨⟨enc_cr, enc_lf, enc_quote, enc_percent⟩, ?_, ?_, ?_⟩
  · intro c h1 h2 h3 h4
    exact enc_plain c (by simp [h1, h2, h3, h4])
  · intro name
    obtain ⟨m1, m2, m3⟩ := no_cr_lf_quote_in_encode name
    exact ⟨m1, m2, m3, escapedShape_encode name⟩
  · intro boundary name
    simp [GetFormDataBoundary, List.append_assoc]

/-- Witness for C3: a character outside the escaped set is left unchanged. -/
theorem encodeMIMEField_escapes_exactly_four_witness :
    EncodeMIMEFieldChar 'a' = ['a'] :=
  encodeMIMEField_escapes_exactly_four.2.1 'a' (by decide) (by decide) (by decide)
    (by decide)

/-- C4: `SetFileAttachment` stores `application/octet-stream` when
`contentType` is empty; fails fatally (modelled as `none`) when
`contentType` contains a character outside `[A-Za-z0-9/._+-]`; and stores
`contentType` verbatim when all its characters are inside that set. -/
theorem setFileAttachment_content_type (b : HTTPMultipartBuilder)
    (key ufn path ct : Str) :
    (ct = [] →
      (b.SetFileAttachment key ufn path ct).map
          (fun b' => mapFind b'.file_attachments key) =
        some (some ⟨EncodeMIMEField ufn, path, "application/octet-stream".data⟩)) ∧
    ((∃ c ∈ ct, ¬(('a' ≤ c ∧ c ≤ 'z') ∨ ('A' ≤ c ∧ c ≤ 'Z') ∨ ('0' ≤ c ∧ c ≤ '9') ∨
        c = '/' ∨ c = '.' ∨ c = '_' ∨ c = '+' ∨ c = '-')) →
      b.SetFileAttachment key ufn path ct = none) ∧
    (ct ≠ [] →
      (∀ c ∈ ct, ('a' ≤ c ∧ c ≤ 'z') ∨ ('A' ≤ c ∧ c ≤ 'Z') ∨ ('0' ≤ c ∧ c ≤ '9') ∨
        c = '/' ∨ c = '.' ∨ c = '_' ∨ c = '+' ∨ c = '-') →
      (b.SetFileAttachment key ufn path ct).map
          (fun b' => mapFind b'.file_attachments key) =
        some (some ⟨EncodeMIMEField ufn, path, ct⟩)) := by
  refine ⟨?_, ?_, ?_⟩
  · intro h
    subst h
    simp [HTTPMultipartBuilder.SetFileAttachment, mapFind_insert_self]
  · rintro ⟨c, hc, hbad⟩
    have hne : ct ≠ [] := List.ne_nil_of_mem hc
    have hall : AssertSafeMIMEType ct = false := by
      rw [AssertSafeMIMEType]
      rw [List.all_eq_false]
      exact ⟨c, hc, by simp [safeMIMEChar_iff, hbad]⟩
    simp [HTTPMultipartBuilder.SetFileAttachment, hne, hall]
  · intro hne hall
    have hsafe : AssertSafeMIMEType ct = true := by
      rw [AssertSafeMIMEType]
      rw [List.all_eq_true]
      intro c hc
      exact (safeMIMEChar_iff c).mpr (hall c hc)
    simp [HTTPMultipartBuilder.SetFileAttachment, hne, hsafe, mapFind_insert_self]

/-- Witness for C4: empty content type becomes `application/octet-stream`,
a content type with a space is rejected, `text/plain` is stored verbatim. -/
theorem setFileAttachment_content_type_witness :
    (HTTPMultipartBuilder.SetFileAttachment ⟨['B'], [], []⟩
        "k".data "f".data "p".data []).map
      (fun b' => mapFind b'.file_attachments "k".data) =
      some (some ⟨EncodeMIMEField "f".data, "p".data,
        "application/octet-stream".data⟩) ∧
    HTTPMultipartBuilder.SetFileAttachment ⟨['B'], [], []⟩
        "k".data "f".data "p".data "bad type".data = none ∧
    (HTTPMultipartBuilder.SetFileAttachment ⟨['B'], [], []⟩
        "k".data "f".data "p".data "text/plain".data).map
      (fun b' => mapFind b'.file_attachments "k".data) =
      some (some ⟨EncodeMIMEField "f".data, "p".data, "text/plain".data⟩) := by
  refine ⟨?_, ?_, ?_⟩
  · exact (setFileAttachment_content_type ⟨['B'], [], []⟩
      "k".data "f".data "p".data []).1 rfl
  · exact (setFileAttachment_content_type ⟨['B'], [], []⟩
      "k".data "f".data "p".data "bad type".data).2.1 ⟨' ', by decide, by decide⟩
  · exact (setFileAttachment_content_type ⟨['B'], [], []⟩
      "k".data "f".data "p".data "text/plain".data).2.2 (by decide) (by decide)

/-- C5: the boundary is the fixed prefix `---MultipartBoundary-`, then 32
characters drawn from the 62-character alphanumeric alphabet (character
`index` is the alphabet entry selected by the random value at `index`,
reduced modulo 62 — a bijection of the uniform range onto the 62 distinct
alphabet characters), then the fixed suffix `---`; it is generated exactly
once at construction and no operation changes it. -/
theorem boundary_generation_and_immutability :
    (∀ rand : Nat → Nat, ∃ middle : Str,
      GenerateBoundaryString rand =
        "---MultipartBoundary-".data ++ middle ++ "---".data ∧
      middle.length = 32 ∧
      (∀ c ∈ middle, c ∈ kCharacters) ∧
      (∀ index : Nat, index < 32 →
        middle.getD index 'A' = kCharacters.getD (rand index % 62) 'A')) ∧
    kCharacters.length = 62 ∧ kCharacters.Nodup ∧
    (∀ rand : Nat → Nat,
      (HTTPMultipartBuilder.construct rand).boundary = GenerateBoundaryString rand) ∧
    (∀ (b : HTTPMultipartBuilder) (key value : Str),
      (b.SetFormData key value).boundary = b.boundary) ∧
    (∀ (b b' : HTTPMultipartBuilder) (key ufn path ct : Str),
      b.SetFileAttachment key ufn path ct = some b' → b'.boundary = b.boundary) ∧
    (∀ b : HTTPMultipartBuilder, b.GetBodyStreamM.1.boundary = b.boundary) := by
  refine ⟨?_, by decide, by decide, fun _ => rfl, fun _ _ _ => rfl, ?_, fun _ => rfl⟩
  · intro rand
    refine ⟨(List.range 32).map fun index => kCharacters.getD (rand index % 62) 'A',
      rfl, by simp, ?_, ?_⟩
    · intro c hc
      simp only [List.mem_map, List.mem_range] at hc
      obtain ⟨i, _, rfl⟩ := hc
      have hlen : rand i % 62 < kCharacters.length := by
        have h62 : rand i % 62 < 62 := Nat.mod_lt _ (by decide)
        simpa using h62
      rw [List.getD_eq_getElem _ _ hlen]
      exact List.getElem_mem hlen
    · intro index hindex
      have h1 : index < ((List.range 32).map fun index =>
          kCharacters.getD (rand index % 62) 'A').length := by simpa using hindex
      rw [List.getD_eq_getElem _ _ h1]
      simp
  · intro b b' key ufn path ct h
    exact setFileAttachment_boundary b key ufn path ct b' h

/-- Witness for C5: the boundary of the builder produced by a concrete
`SetFileAttachment` call equals the boundary of the input builder. -/
theorem boundary_generation_and_immutability_witness :
    (HTTPMultipartBuilder.mk ['B'] []
        [("k".data, ⟨"f".data, "p".data, "application/octet-stream".data⟩)]).boundary =
      (HTTPMultipartBuilder.mk ['B'] [] []).boundary :=
  boundary_generation_and_immutability.2.2.2.2.2.1 ⟨['B'], [], []⟩
    ⟨['B'], [], [("k".data, ⟨"f".data, "p".data, "application/octet-stream".data⟩)]⟩
    "k".data "f".data "p".data [] (by decide)

/-- C6: `SetFormData(key, value)` removes any existing field or attachment
under `key`, stores `value` verbatim as a text field under `key`, leaves
every other key untouched in both collections, and (being a total
function) always succeeds. -/
theorem setFormData_spec (b : HTTPMultipartBuilder) (k v : Str)
    (ha : (b.file_attachments.map Prod.fst).Nodup) :
    mapFind (b.SetFormData k v).form_data k = some v ∧
    mapFind (b.SetFormData k v).file_attachments k = none ∧
    (∀ k', k' ≠ k →
      mapFind (b.SetFormData k v).form_data k' = mapFind b.form_data k' ∧
      mapFind (b.SetFormData k v).file_attachments k' =
        mapFind b.file_attachments k') := by
  refine ⟨?_, ?_, ?_⟩
  · exact mapFind_insert_self _ _ _
  · exact mapFind_erase_self _ _ ha
  · intro k' hk'
    constructor
    · show mapFind (mapInsert (mapErase b.form_data k) k v) k' = _
      rw [mapFind_insert_ne _ _ _ _ hk', mapFind_erase_ne _ _ _ hk']
    · exact mapFind_erase_ne _ _ _ hk'

/-- Witness for C6 at a concrete builder holding a field under `"a"` and an
attachment under `"k"`. -/
theorem setFormData_spec_witness :
    mapFind ((HTTPMultipartBuilder.mk ['B'] [("a".data, "x".data)]
        [("k".data, ⟨[], [], []⟩)]).SetFormData "k".data "v".data).form_data
      "k".data = some "v".data ∧
    mapFind ((HTTPMultipartBuilder.mk ['B'] [("a".data, "x".data)]
        [("k".data, ⟨[], [], []⟩)]).SetFormData "k".data "v".data).file_attachments
      "k".data = none ∧
    mapFind ((HTTPMultipartBuilder.mk ['B'] [("a".data, "x".data)]
        [("k".data, ⟨[], [], []⟩)]).SetFormData "k".data "v".data).form_data
      "a".data = some "x".data := by
  have h := setFormData_spec
    ⟨['B'], [("a".data, "x".data)], [("k".data, ⟨[], [], []⟩)]⟩
    "k".data "v".data (by decide)
  exact ⟨h.1, h.2.1, ((h.2.2 "a".data (by decide)).1).trans (by decide)⟩

theorem filter_triple_one (p : HTTPBodyStream → Bool) (a b c : HTTPBodyStream)
    (h1 : p a = true) (h2 : p b = false) (h3 : p c = false) :
    (List.filter p [a, b, c]).length = 1 := by
  rw [List.filter_cons, List.filter_cons, List.filter_cons, List.filter_nil,
    h1, h2, h3]
  simp

theorem filter_triple_zero (p : HTTPBodyStream → Bool) (a b c : HTTPBodyStream)
    (h1 : p a = false) (h2 : p b = false) (h3 : p c = false) :
    (List.filter p [a, b, c]).length = 0 := by
  rw [List.filter_cons, List.filter_cons, List.filter_cons, List.filter_nil,
    h1, h2, h3]
  simp

/-- C7: for a builder whose field keys do not collide with attachment keys,
the produced stream list contains exactly `#fields + #attachments` streams
that begin a part (start with `--{boundary}\r\n`) and exactly one closing
segment `--{boundary}--\r\n`. -/
theorem body_stream_part_count (b : HTTPMultipartBuilder)
    (hdisj : ∀ k ∈ b.form_data.map Prod.fst, mapFind b.file_attachments k = none) :
    (b.GetBodyStream.filter (isPartStart b.boundary)).length =
      b.form_data.length + b.file_attachments.length ∧
    (b.GetBodyStream.filter (isClosing b.boundary)).length = 1 := by
  constructor
  · unfold HTTPMultipartBuilder.GetBodyStream
    rw [List.filter_append, List.filter_append, List.length_append,
      List.length_append]
    have hA : ((b.form_data.map fun pair =>
        HTTPBodyStream.stringStream
          (GetFormDataBoundary b.boundary pair.1 ++ kBoundaryCRLF ++ pair.2 ++
            kCRLF)).filter (isPartStart b.boundary)).length = b.form_data.length := by
      rw [List.filter_eq_self.mpr, List.length_map]
      rintro s hs
      simp only [List.mem_map] at hs
      obtain ⟨pair, _, rfl⟩ := hs
      simp only [List.append_assoc]
      exact isPartStart_field_stream _ _ _
    have hB := filter_flatMap_length_one (isPartStart b.boundary)
      (fun pair => [HTTPBodyStream.stringStream
           (GetFormDataBoundary b.boundary pair.1 ++
             "; filename=\"".data ++ pair.2.filename ++ "\"".data ++ kCRLF ++
             "Content-Type: ".data ++ pair.2.content_type ++ kBoundaryCRLF),
         HTTPBodyStream.fileStream pair.2.path,
         HTTPBodyStream.stringStream kCRLF])
      b.file_attachments (fun pair _ =>
        filter_triple_one _ _ _ _
          (by simp only [List.append_assoc]; exact isPartStart_att_header _ _ _)
          rfl (isPartStart_crlf b.boundary))
    have hC : (([HTTPBodyStream.stringStream
        ("--".data ++ b.boundary ++ "--".data ++ kCRLF)]).filter
          (isPartStart b.boundary)).length = 0 := by
      rw [List.filter_cons, List.filter_nil,
        show isPartStart b.boundary (HTTPBodyStream.stringStream
          ("--".data ++ b.boundary ++ "--".data ++ kCRLF)) = false from by
            simp only [List.append_assoc]; exact isPartStart_closing b.boundary]
      simp
    rw [hA, hB, hC]
    omega
  · unfold HTTPMultipartBuilder.GetBodyStream
    rw [List.filter_append, List.filter_append, List.length_append,
      List.length_append]
    have hA : ((b.form_data.map fun pair =>
        HTTPBodyStream.stringStream
          (GetFormDataBoundary b.boundary pair.1 ++ kBoundaryCRLF ++ pair.2 ++
            kCRLF)).filter (isClosing b.boundary)).length = 0 := by
      rw [List.length_eq_zero, List.filter_eq_nil_iff]
      rintro s hs
      simp only [List.mem_map] at hs
      obtain ⟨pair, _, rfl⟩ := hs
      simp only [Bool.not_eq_true, List.append_assoc]
      exact isClosing_field_stream _ _ _
    have hB := filter_flatMap_length_zero (isClosing b.boundary)
      (fun pair => [HTTPBodyStream.stringStream
           (GetFormDataBoundary b.boundary pair.1 ++
             "; filename=\"".data ++ pair.2.filename ++ "\"".data ++ kCRLF ++
             "Content-Type: ".data ++ pair.2.content_type ++ kBoundaryCRLF),
         HTTPBodyStream.fileStream pair.2.path,
         HTTPBodyStream.stringStream kCRLF])
      b.file_attachments (fun pair _ =>
        filter_triple_zero _ _ _ _
          (by simp only [List.append_assoc]; exact isClosing_att_header _ _ _)
          (isClosing_file_false b.boundary pair.2.path) (isClosing_crlf_false b.boundary))
    have hC : (([HTTPBodyStream.stringStream
        ("--".data ++ b.boundary ++ "--".data ++ kCRLF)]).filter
          (isClosing b.boundary)).length = 1 := by
      rw [List.filter_cons, List.filter_nil,
        show isClosing b.boundary (HTTPBodyStream.stringStream
          ("--".data ++ b.boundary ++ "--".data ++ kCRLF)) = true from by
            simp only [List.append_assoc]; exact isClosing_self b.boundary]
      simp
    rw [hA, hB, hC]

/-- Witness for C7 at a concrete builder with one field and one attachment. -/
theorem body_stream_part_count_witness :
    ((HTTPMultipartBuilder.GetBodyStream
        ⟨['B'], [("a".data, "v".data)],
          [("f".data, ⟨"n".data, "p".data, "t".data⟩)]⟩).filter
      (isPartStart ['B'])).length = 2 ∧
    ((HTTPMultipartBuilder.GetBodyStream
        ⟨['B'], [("a".data, "v".data)],
          [("f".data, ⟨"n".data, "p".data, "t".data⟩)]⟩).filter
      (isClosing ['B'])).length = 1 := by
  have h := body_stream_part_count
    ⟨['B'], [("a".data, "v".data)], [("f".data, ⟨"n".data, "p".data, "t".data⟩)]⟩
    (by decide)
  simpa using h

end Crashpad
